import Mathlib

/-!
Verification of the Paper-Analyst document pipeline (document_loader.py,
config.py, main.py) against its specification. Text is modelled as
`List Char`; machine-side collaborators (the tiktoken tokenizer, the
Python `str.isprintable`/`str.isspace` predicates, the remote model
client) are modelled as explicit parameters so that all definitions stay
executable.
-/

namespace PaperAnalyst

/-- A loaded document: `{"filename": ..., "content": ...}`. -/
structure Document where
  filename : List Char
  content : List Char
deriving Repr, DecidableEq

/-- The distinct warning strings produced by `load_documents` in
document_loader.py (one constructor per f-string) together with the
truncation warning appended by `run_app`. -/
inductive Warning where
  | invalidFolder (path : List Char)
  | scannedPdf (filename : List Char)
  | oversizedSplit (filename : List Char)
  | unreadable (filename : List Char)
  | nothingFound
  | maxDocs (maxDocs : Nat)
deriving Repr, DecidableEq

/-- `_sanitize_text` from document_loader.py.  `keep` models the Python
predicate `ch.isprintable() or ch.isspace()`; the subsequent
`str.replace` calls delete NUL and rewrite the Unicode line/paragraph
separators to a newline. -/
def sanitize_text (keep : Char → Bool) (text : List Char) : List Char :=
  let s1 := text.filter keep
  let s2 := s1.filter (fun ch => ch ≠ Char.ofNat 0)
  let s3 := s2.map (fun ch => if ch = Char.ofNat 0x2028 then '\n' else ch)
  s3.map (fun ch => if ch = Char.ofNat 0x2029 then '\n' else ch)

/-- Python `str.strip()` on both ends, with Lean's whitespace predicate. -/
def strip (s : List Char) : List Char :=
  ((s.dropWhile Char.isWhitespace).reverse.dropWhile Char.isWhitespace).reverse

/-- The slice list `[sanitized[i:i+C] for i in range(0, len(sanitized), C)]`
from `load_documents` (document_loader.py lines 97-100), for step `C`. -/
def chunkSlices (C : Nat) (s : List Char) : List (List Char) :=
  if h : 0 < C ∧ s ≠ [] then
    s.take C :: chunkSlices C (s.drop C)
  else []
termination_by s.length
decreasing_by
  have hC : 0 < C := h.1
  have hs : s.length ≠ 0 := fun hh => h.2 (List.length_eq_zero.mp hh)
  simp only [List.length_drop]
  omega

/-- The filename `f"{name} (Part {k})"` given to the k-th chunk. -/
def partLabel (name : List Char) (k : Nat) : List Char :=
  name ++ " (Part ".toList ++ Nat.toDigits 10 k ++ ")".toList

/-- The per-file document list built by `load_documents` once the content
is sanitized: split into labeled parts when longer than the limit `C`,
otherwise kept whole under the original filename. -/
def chunkDocs (C : Nat) (name s : List Char) : List Document :=
  if s.length > C then
    (chunkSlices C s).enum.map (fun p => ⟨partLabel name (p.1 + 1), p.2⟩)
  else [⟨name, s⟩]

/-- Supported and unsupported filename suffixes (`supported_extensions`
keys in `load_documents`; anything else is skipped silently). -/
inductive Ext where
  | pdf | docx | txt | md | csv | other
deriving Repr, DecidableEq

/-- `file_path.suffix in supported_extensions`. -/
def supportedExt : Ext → Bool
  | .pdf | .docx | .txt | .md | .csv => true
  | .other => false

/-- One directory entry as observed by `load_documents`: its name,
whether it is a regular file, its suffix, `stat().st_size`, and the
outcome of the per-format reader. For a PDF, `pdfRaw` is `none` when
`fitz.open`/page iteration raised and `some t` with the concatenated
page text otherwise (`_read_pdf` then strips it); for the other
formats `textRaw` is the already-stripped text a reader returned, `[]`
on any reader failure. -/
structure FileEntry where
  name : List Char
  is_file : Bool
  ext : Ext
  size : Nat
  pdfRaw : Option (List Char)
  textRaw : List Char
deriving Repr, DecidableEq

/-- `_read_pdf` from document_loader.py: returns the stripped text and
whether any non-whitespace text was extracted; `([], false)` when the
parse raised. -/
def read_pdf (f : FileEntry) : List Char × Bool :=
  match f.pdfRaw with
  | none => ([], false)
  | some t => (strip t, !(strip t).isEmpty)

/-- The body of the `for file_path in path.iterdir()` loop of
`load_documents`, for one supported regular file: the documents and
warnings it contributes, in emission order. -/
def handleFile (C : Nat) (keep : Char → Bool) (f : FileEntry) :
    List Document × List Warning :=
  let r : List Char × List Warning :=
    match f.ext with
    | .pdf =>
      let p := read_pdf f
      (p.1, if !p.2 && decide (0 < f.size) then [Warning.scannedPdf f.name] else [])
    | _ => (f.textRaw, [])
  if r.1 ≠ [] then
    let sanitized := sanitize_text keep r.1
    if sanitized.length > C then
      (chunkDocs C f.name sanitized, r.2 ++ [Warning.oversizedSplit f.name])
    else
      (chunkDocs C f.name sanitized, r.2)
  else if 0 < f.size then
    ([], r.2 ++ [Warning.unreadable f.name])
  else ([], r.2)

/-- `load_documents` from document_loader.py. `isDir` is
`Path(folder_path).is_dir()`; `files` lists the directory entries in
iteration order. `C` is `config.MAX_DOCUMENT_CHARS` and `keep` the
printable-or-space predicate used by the sanitizer. -/
def load_documents (C : Nat) (keep : Char → Bool) (isDir : Bool)
    (folder_path : List Char) (files : List FileEntry) :
    List Document × List Warning :=
  if !isDir then ([], [Warning.invalidFolder folder_path])
  else
    let r := files.foldl
      (fun acc f =>
        if f.is_file && supportedExt f.ext then
          let hf := handleFile C keep f
          (acc.1 ++ hf.1, acc.2 ++ hf.2)
        else acc)
      ([], [])
    if r.1 = [] && r.2 = [] then ([], [Warning.nothingFound]) else r

/-- `get_token_count` from main.py: `tokenize` models
`len(tiktoken.get_encoding(name).encode(string))`, returning `none`
when tokenization raised; the fallback is `len(string) // 4`. -/
def get_token_count (tokenize : List Char → Option Nat) (s : List Char) : Nat :=
  match tokenize s with
  | some n => n
  | none => s.length / 4

/-- A message role. -/
inductive Role where
  | system | user | assistant
deriving Repr, DecidableEq

/-- A conversation message `{"role": ..., "content": ...}`. -/
structure Message where
  role : Role
  content : List Char
deriving Repr, DecidableEq

/-- Token usage `{"input_tokens": ..., "output_tokens": ..., "total_tokens": ...}`. -/
structure Usage where
  input_tokens : Nat
  output_tokens : Nat
  total_tokens : Nat
deriving Repr, DecidableEq

/-- The `st.session_state` keys of `config.SESSION_STATE_DEFAULTS`. -/
structure SessionState where
  app_status : List Char
  selected_model : Option (List Char)
  folder_path : List Char
  loaded_documents : List Document
  load_warnings : List Warning
  messages : List Message
  system_role_defined : Bool
  total_usage : Usage
  is_generating : Bool
  stop_generation : Bool
  last_usage_info : Option Usage
  debug_mode : Bool
deriving Repr, DecidableEq

/-- `SESSION_STATE_DEFAULTS` from config.py. -/
def sessionDefaults : SessionState where
  app_status := "INITIAL".toList
  selected_model := none
  folder_path := "paper".toList
  loaded_documents := []
  load_warnings := []
  messages := []
  system_role_defined := false
  total_usage := ⟨0, 0, 0⟩
  is_generating := false
  stop_generation := false
  last_usage_info := none
  debug_mode := false

/-- A parsed session snapshot as consumed by `load_session_from_file`:
each field is `none` when the corresponding JSON key is absent. -/
structure Snapshot where
  messages : Option (List Message)
  loaded_documents : Option (List Document)
  selected_model : Option (List Char)
  total_usage : Option Usage
  load_warnings : Option (List Warning)
deriving Repr, DecidableEq

/-- `load_session_from_file` from main.py, for an input whose JSON
parsed. Returns the new session state and whether the
`SESSION_FORMAT_ERROR` message was shown (on which the function
returns before touching the state). On success the state is cleared to
defaults (`_clear_session_for_load`) and then repopulated from the
snapshot. -/
def load_session_from_file (st : SessionState) (snap : Snapshot) :
    SessionState × Bool :=
  match snap.messages, snap.loaded_documents, snap.selected_model with
  | some ms, some docs, some model =>
    ({ sessionDefaults with
        messages := ms
        loaded_documents := docs
        selected_model := some model
        total_usage := snap.total_usage.getD sessionDefaults.total_usage
        load_warnings := snap.load_warnings.getD []
        app_status := "READY".toList
        system_role_defined := true }, false)
  | _, _, _ => (st, true)

/-- One stream item: `some s` when `chunk.choices` is nonempty and
`chunk.choices[0].delta.content` is not `None` (then `s` is that
content), `none` otherwise. -/
structure Chunk where
  content : Option (List Char)
deriving Repr, DecidableEq

/-- The outcome of `client.chat.completions.create(..., stream=True)`:
either the call itself raised before yielding anything, or it yields
`chunks` in order and then, if `failsAtEnd`, raises when the next item
is requested after the last one. -/
inductive RemoteResult where
  | failure
  | stream (chunks : List Chunk) (failsAtEnd : Bool)
deriving Repr, DecidableEq

/-- The `for chunk in stream` loop of `run_app` (main.py lines
363-370). `stopAt` is the number of fragment-receipt checks at which
`st.session_state.stop_generation` still reads false: the flag reads
true from check number `stopAt` on (the flag is only ever set, never
cleared, during a turn). Returns the accumulated `full_response` and
whether the loop broke on the stop flag (showing the
`GENERATION_STOPPED_WARNING`). -/
def streamLoop : List Chunk → Nat → List Char × Bool
  | [], _ => ([], false)
  | _ :: _, 0 => ([], true)
  | c :: rest, n + 1 =>
    let r := streamLoop rest n
    (c.content.getD [] ++ r.1, r.2)

/-- The result of one chat turn: the updated session state, whether the
remote client was invoked, the reported budget error (computed count,
model name, ceiling) if any, whether an API error was reported, whether
the cancellation warning was shown, and the `full_response` committed
by the `finally` block. -/
structure TurnOutcome where
  state : SessionState
  clientInvoked : Bool
  budgetError : Option (Nat × List Char × Nat)
  apiErrorReported : Bool
  cancelReported : Bool
  committedResponse : List Char
deriving Repr, DecidableEq

/-- The `finally` block of `run_app` (main.py lines 377-395): reset the
two generation flags, then, if the accumulated response is nonempty,
append it to history as an assistant message and add the turn's token
usage to the session totals. -/
def finallyCommit (tc : List Char → Nat) (input_tokens : Nat)
    (full_response : List Char) (st : SessionState) : SessionState :=
  let st1 := { st with is_generating := false, stop_generation := false }
  if full_response ≠ [] then
    let output_tokens := tc full_response
    let total_tokens := input_tokens + output_tokens
    { st1 with
        messages := st1.messages ++ [⟨Role.assistant, full_response⟩]
        last_usage_info := some ⟨input_tokens, output_tokens, total_tokens⟩
        total_usage :=
          ⟨st1.total_usage.input_tokens + input_tokens,
           st1.total_usage.output_tokens + output_tokens,
           st1.total_usage.total_tokens + total_tokens⟩ }
  else st1

/-- The guarded generation block of `run_app` (main.py lines 345-395).
`tc` is `get_token_count` (applied to the serialized message list
`messagesJson` and later to the response), `max_input_tokens` the
per-model ceiling, `remote` the remote client's behaviour for this
call, and `stopAt` the stop-flag schedule of `streamLoop`. The budget
check raises `ValueError` — the `TokenBudgetExceeded` report — before
the client is ever invoked; otherwise the stream is consumed until
exhaustion, a mid-stream failure, or the stop flag; the `finally`
block always runs. -/
def runTurn (tc : List Char → Nat) (model_name : List Char)
    (max_input_tokens : Nat) (messagesJson : List Char)
    (remote : RemoteResult) (stopAt : Nat) (st : SessionState) : TurnOutcome :=
  let input_tokens := tc messagesJson
  if input_tokens > max_input_tokens then
    { state := finallyCommit tc input_tokens [] st
      clientInvoked := false
      budgetError := some (input_tokens, model_name, max_input_tokens)
      apiErrorReported := false
      cancelReported := false
      committedResponse := [] }
  else
    match remote with
    | .failure =>
      { state := finallyCommit tc input_tokens [] st
        clientInvoked := true
        budgetError := none
        apiErrorReported := true
        cancelReported := false
        committedResponse := [] }
    | .stream chunks failsAtEnd =>
      let r := streamLoop chunks stopAt
      { state := finallyCommit tc input_tokens r.1 st
        clientInvoked := true
        budgetError := none
        apiErrorReported := failsAtEnd && !r.2
        cancelReported := r.2
        committedResponse := r.1 }

theorem chunkSlices_nil (C : Nat) : chunkSlices C [] = [] := by
  rw [chunkSlices]
  simp

theorem chunkSlices_cons (C : Nat) (hC : 0 < C) (s : List Char) (hs : s ≠ []) :
    chunkSlices C s = s.take C :: chunkSlices C (s.drop C) := by
  rw [chunkSlices]
  simp [hC, hs]

theorem chunkSlices_flatten (C : Nat) (hC : 0 < C) (s : List Char) :
    (chunkSlices C s).flatten = s := by
  by_cases hs : s = []
  · subst hs
    simp [chunkSlices_nil]
  · rw [chunkSlices_cons C hC s hs, List.flatten_cons,
      chunkSlices_flatten C hC (s.drop C), List.take_append_drop]
termination_by s.length
decreasing_by
  have hlen : s.length ≠ 0 := fun hh => hs (List.length_eq_zero.mp hh)
  simp only [List.length_drop]
  omega

theorem chunkSlices_length (C : Nat) (hC : 0 < C) (s : List Char) :
    (chunkSlices C s).length = (s.length + C - 1) / C := by
  by_cases hs : s = []
  · subst hs
    simp [chunkSlices_nil, Nat.div_eq_of_lt (show C - 1 < C by omega)]
  · have hpos : 0 < s.length := List.length_pos.mpr hs
    rw [chunkSlices_cons C hC s hs]
    have ih := chunkSlices_length C hC (s.drop C)
    simp only [List.length_cons, ih, List.length_drop]
    rcases Nat.le_total C s.length with h | h
    · have e1 : s.length - C + C - 1 = s.length - 1 := by omega
      have e2 : s.length + C - 1 = s.length - 1 + C := by omega
      rw [e1, e2, Nat.add_div_right _ hC]
    · have e1 : s.length - C + C - 1 = C - 1 := by omega
      have e2 : s.length + C - 1 = s.length - 1 + C := by omega
      rw [e1, e2, Nat.add_div_right _ hC,
        Nat.div_eq_of_lt (show C - 1 < C by omega),
        Nat.div_eq_of_lt (show s.length - 1 < C by omega)]
termination_by s.length
decreasing_by
  have hlen : s.length ≠ 0 := fun hh => hs (List.length_eq_zero.mp hh)
  simp only [List.length_drop]
  omega

theorem chunkSlices_getElem_length (C : Nat) (hC : 0 < C) (s : List Char)
    (i : Nat) (h : i + 1 < (chunkSlices C s).length) :
    (chunkSlices C s)[i]?.map List.length = some C := by
  by_cases hs : s = []
  · subst hs
    rw [chunkSlices_nil] at h
    simp at h
  · rcases i with _ | j
    · have hrest : chunkSlices C (s.drop C) ≠ [] := by
        intro hnil
        rw [chunkSlices_cons C hC s hs, hnil] at h
        simp at h
      have hdrop : s.drop C ≠ [] := by
        intro hdnil
        exact hrest (hdnil ▸ chunkSlices_nil C)
      have hlt : C < s.length := List.length_lt_of_drop_ne_nil hdrop
      rw [chunkSlices_cons C hC s hs]
      simp [List.length_take]
      omega
    · have h2 : j + 1 < (chunkSlices C (s.drop C)).length := by
        rw [chunkSlices_cons C hC s hs] at h
        simpa using h
      rw [chunkSlices_cons C hC s hs]
      simpa using chunkSlices_getElem_length C hC (s.drop C) j h2
termination_by s.length
decreasing_by
  have hlen : s.length ≠ 0 := fun hh => hs (List.length_eq_zero.mp hh)
  simp only [List.length_drop]
  omega

/-- C1: for sanitized text of length `L` and a positive chunk limit `C`,
the Chunker returns the text unchanged as a single unit when `L ≤ C`;
otherwise it produces exactly `⌈L/C⌉` documents whose contents
concatenate (in part order) to the text, every document but the last
has content length exactly `C`, and document `i` (0-based) is labeled
`(Part i+1)`. -/
theorem chunker_partitions_text (C : Nat) (hC : 0 < C) (name s : List Char) :
    (s.length ≤ C → chunkDocs C name s = [⟨name, s⟩]) ∧
    (C < s.length →
      (chunkDocs C name s).length = (s.length + C - 1) / C ∧
      ((chunkDocs C name s).map Document.content).flatten = s ∧
      ∀ i, i < (chunkDocs C name s).length →
        (chunkDocs C name s)[i]?.map Document.filename
            = some (partLabel name (i + 1)) ∧
        (i + 1 < (chunkDocs C name s).length →
          (chunkDocs C name s)[i]?.map (fun d => d.content.length) = some C)) := by
  constructor
  · intro hle
    rw [chunkDocs, if_neg (by omega)]
  · intro hgt
    have hifpos : chunkDocs C name s
        = (chunkSlices C s).enum.map (fun p => ⟨partLabel name (p.1 + 1), p.2⟩) := by
      rw [chunkDocs, if_pos (by omega)]
    refine ⟨?_, ?_, ?_⟩
    · rw [hifpos]
      simp [chunkSlices_length C hC s]
    · rw [hifpos, List.map_map]
      have hcongr : List.map
            (Document.content ∘ fun p : Nat × List Char =>
              (⟨partLabel name (p.1 + 1), p.2⟩ : Document))
            (chunkSlices C s).enum
          = List.map Prod.snd (chunkSlices C s).enum :=
        List.map_congr_left (fun p _ => rfl)
      rw [hcongr, List.enum_map_snd, chunkSlices_flatten C hC s]
    · intro i h
      have hlen : i < (chunkSlices C s).length := by
        rw [hifpos] at h
        simpa using h
      constructor
      · rw [hifpos]
        simp [List.getElem?_map, List.getElem?_enum,
          List.getElem?_eq_getElem hlen]
      · intro hnext
        have hnext2 : i + 1 < (chunkSlices C s).length := by
          rw [hifpos] at hnext
          simpa using hnext
        have hval := chunkSlices_getElem_length C hC s i hnext2
        rw [List.getElem?_eq_getElem hlen] at hval
        rw [hifpos]
        simp only [List.getElem?_map, List.getElem?_enum,
          List.getElem?_eq_getElem hlen, Option.map_some]
        simpa using hval

/-- Witness for `chunker_partitions_text` at `C = 2`, `s = "abcde"`. -/
theorem chunker_partitions_text_witness :
    0 < 2 ∧
    ((("abcde".toList).length ≤ 2 →
        chunkDocs 2 "a.txt".toList "abcde".toList = [⟨"a.txt".toList, "abcde".toList⟩]) ∧
      (2 < ("abcde".toList).length →
        (chunkDocs 2 "a.txt".toList "abcde".toList).length
            = (("abcde".toList).length + 2 - 1) / 2 ∧
        ((chunkDocs 2 "a.txt".toList "abcde".toList).map Document.content).flatten
            = "abcde".toList ∧
        ∀ i, i < (chunkDocs 2 "a.txt".toList "abcde".toList).length →
          (chunkDocs 2 "a.txt".toList "abcde".toList)[i]?.map Document.filename
              = some (partLabel "a.txt".toList (i + 1)) ∧
          (i + 1 < (chunkDocs 2 "a.txt".toList "abcde".toList).length →
            (chunkDocs 2 "a.txt".toList "abcde".toList)[i]?.map
              (fun d => d.content.length) = some 2))) :=
  ⟨by decide, chunker_partitions_text 2 (by decide) "a.txt".toList "abcde".toList⟩

theorem sanitize_text_mem (keep : Char → Bool) (s : List Char) (c : Char)
    (hnl : keep '\n' = true) (hc : c ∈ sanitize_text keep s) :
    keep c = true ∧ c ≠ Char.ofNat 0 ∧ c ≠ Char.ofNat 0x2028 ∧ c ≠ Char.ofNat 0x2029 := by
  simp only [sanitize_text, List.mem_map, List.mem_filter] at hc
  obtain ⟨b, ⟨a, ⟨⟨⟨has, hkeep⟩, hne0⟩, hab⟩⟩, hbc⟩ := hc
  subst hab
  subst hbc
  by_cases h28 : a = Char.ofNat 0x2028
  · simp only [h28, if_pos rfl]
    refine ⟨by simpa using hnl, by decide, by decide, by decide⟩
  · simp only [if_neg h28]
    by_cases h29 : a = Char.ofNat 0x2029
    · simp only [h29, if_pos rfl]
      refine ⟨by simpa using hnl, by decide, by decide, by decide⟩
    · simp only [if_neg h29]
      exact ⟨hkeep, by simpa using hne0, h28, h29⟩

/-- C9: the Sanitizer is idempotent. `keep` is the Python predicate
`ch.isprintable() or ch.isspace()`; the only fact about it the proof
needs is that a newline — the character the separator replacement
introduces — is itself kept, which holds for `str.isspace`. -/
theorem sanitizer_idempotent (keep : Char → Bool) (hnl : keep '\n' = true)
    (s : List Char) :
    sanitize_text keep (sanitize_text keep s) = sanitize_text keep s := by
  have hmem := fun c hc => sanitize_text_mem keep s c hnl hc
  have h1 : (sanitize_text keep s).filter keep = sanitize_text keep s :=
    List.filter_eq_self.mpr (fun a ha => (hmem a ha).1)
  have h2 : (sanitize_text keep s).filter (fun ch => ch ≠ Char.ofNat 0)
      = sanitize_text keep s :=
    List.filter_eq_self.mpr (fun a ha => by simpa using (hmem a ha).2.1)
  have h3 : (sanitize_text keep s).map
        (fun ch => if ch = Char.ofNat 0x2028 then '\n' else ch)
      = sanitize_text keep s := by
    have hcongr : ∀ a ∈ sanitize_text keep s,
        (if a = Char.ofNat 0x2028 then '\n' else a) = id a := by
      intro a ha
      simp [(hmem a ha).2.2.1]
    rw [List.map_congr_left hcongr, List.map_id]
  have h4 : (sanitize_text keep s).map
        (fun ch => if ch = Char.ofNat 0x2029 then '\n' else ch)
      = sanitize_text keep s := by
    have hcongr : ∀ a ∈ sanitize_text keep s,
        (if a = Char.ofNat 0x2029 then '\n' else a) = id a := by
      intro a ha
      simp [(hmem a ha).2.2.2]
    rw [List.map_congr_left hcongr, List.map_id]
  show ((((sanitize_text keep s).filter keep).filter
        (fun ch => ch ≠ Char.ofNat 0)).map
          (fun ch => if ch = Char.ofNat 0x2028 then '\n' else ch)).map
            (fun ch => if ch = Char.ofNat 0x2029 then '\n' else ch)
      = sanitize_text keep s
  rw [h1, h2, h3, h4]

/-- Witness for `sanitizer_idempotent` with a concrete keep-predicate
and a string containing a control character, a NUL and a U+2028. -/
theorem sanitizer_idempotent_witness :
    (fun ch : Char => ch.isAlphanum || ch.isWhitespace) '\n' = true ∧
    sanitize_text (fun ch => ch.isAlphanum || ch.isWhitespace)
        (sanitize_text (fun ch => ch.isAlphanum || ch.isWhitespace)
          ('a' :: Char.ofNat 0 :: Char.ofNat 0x2028 :: 'b' :: []))
      = sanitize_text (fun ch => ch.isAlphanum || ch.isWhitespace)
          ('a' :: Char.ofNat 0 :: Char.ofNat 0x2028 :: 'b' :: []) :=
  ⟨by decide, sanitizer_idempotent (fun ch => ch.isAlphanum || ch.isWhitespace)
    (by decide) ('a' :: Char.ofNat 0 :: Char.ofNat 0x2028 :: 'b' :: [])⟩

/-- C5 counterexample: with a failing tokenizer the fallback on the
one-character string `"a"` is `1 // 4 = 0`, not `⌈1/4⌉ = 1`: the code
rounds down where the claim says it rounds up. -/
theorem token_fallback_not_ceil :
    get_token_count (fun _ => none) "a".toList = 0 ∧
    (("a".toList).length + 4 - 1) / 4 = 1 ∧
    get_token_count (fun _ => none) "a".toList ≠ (("a".toList).length + 4 - 1) / 4 := by
  decide

/-- C5 (amended): when tokenization fails, `get_token_count` returns
`⌊character_length / 4⌋` (floor division) instead of propagating the
failure to its caller. -/
theorem token_fallback_floor (tokenize : List Char → Option Nat)
    (s : List Char) (h : tokenize s = none) :
    get_token_count tokenize s = s.length / 4 := by
  simp [get_token_count, h]

/-- Witness for `token_fallback_floor` on the string `"abcde"`. -/
theorem token_fallback_floor_witness :
    (fun _ : List Char => (none : Option Nat)) "abcde".toList = none ∧
    get_token_count (fun _ => none) "abcde".toList = ("abcde".toList).length / 4 :=
  ⟨rfl, token_fallback_floor (fun _ => none) "abcde".toList rfl⟩

theorem finallyCommit_nil (tc : List Char → Nat) (itk : Nat) (st : SessionState) :
    finallyCommit tc itk [] st
      = { st with is_generating := false, stop_generation := false } := by
  simp [finallyCommit]

theorem finallyCommit_ne_nil (tc : List Char → Nat) (itk : Nat)
    (full : List Char) (st : SessionState) (h : full ≠ []) :
    finallyCommit tc itk full st
      = { st with
            is_generating := false
            stop_generation := false
            messages := st.messages ++ [⟨Role.assistant, full⟩]
            last_usage_info := some ⟨itk, tc full, itk + tc full⟩
            total_usage :=
              ⟨st.total_usage.input_tokens + itk,
               st.total_usage.output_tokens + tc full,
               st.total_usage.total_tokens + (itk + tc full)⟩ } := by
  simp [finallyCommit, h]

theorem runTurn_state_eq (tc : List Char → Nat) (model_name : List Char)
    (maxTok : Nat) (mj : List Char) (remote : RemoteResult) (stopAt : Nat)
    (st : SessionState) :
    (runTurn tc model_name maxTok mj remote stopAt st).state
      = finallyCommit tc (tc mj)
          (runTurn tc model_name maxTok mj remote stopAt st).committedResponse st := by
  unfold runTurn
  by_cases h : tc mj > maxTok
  · simp [h]
  · cases remote with
    | failure => simp [h]
    | stream chunks failsAtEnd => simp [h]

theorem streamLoop_stop (chunks : List Chunk) (stopAt : Nat)
    (h : stopAt < chunks.length) :
    streamLoop chunks stopAt
      = (((chunks.take stopAt).map (fun c => c.content.getD [])).flatten, true) := by
  induction chunks generalizing stopAt with
  | nil => simp at h
  | cons c rest ih =>
    cases stopAt with
    | zero => simp [streamLoop]
    | succ n =>
      have h2 : n < rest.length := by simpa using h
      simp [streamLoop, ih n h2]

/-- C2: a chat turn whose computed token count exceeds the per-model
ceiling is rejected with the budget error carrying the computed count,
the model name and the ceiling, and the remote client is never
invoked. -/
theorem budget_gate_blocks_remote (tc : List Char → Nat) (model_name : List Char)
    (maxTok : Nat) (mj : List Char) (remote : RemoteResult) (stopAt : Nat)
    (st : SessionState) (h : tc mj > maxTok) :
    (runTurn tc model_name maxTok mj remote stopAt st).budgetError
        = some (tc mj, model_name, maxTok) ∧
    (runTurn tc model_name maxTok mj remote stopAt st).clientInvoked = false := by
  unfold runTurn
  simp [h]

/-- Witness for `budget_gate_blocks_remote`: a five-character serialized
message list against a ceiling of 1 under the length tokenizer. -/
theorem budget_gate_blocks_remote_witness :
    (fun s : List Char => s.length) "12345".toList > 1 ∧
    ((runTurn (fun s => s.length) "gpt".toList 1 "12345".toList
        RemoteResult.failure 0 sessionDefaults).budgetError
      = some ((fun s : List Char => s.length) "12345".toList, "gpt".toList, 1) ∧
    (runTurn (fun s => s.length) "gpt".toList 1 "12345".toList
        RemoteResult.failure 0 sessionDefaults).clientInvoked = false) :=
  ⟨by decide, budget_gate_blocks_remote (fun s => s.length) "gpt".toList 1
    "12345".toList RemoteResult.failure 0 sessionDefaults (by decide)⟩

/-- C3 counterexample: the stop flag is observed at the very first
fragment-receipt check, before any content accumulated. The
cancellation is reported and the (empty) partial text is committed,
but no assistant message is appended — the history stays empty — so
the claim's unconditional "an assistant Message with exactly that
partial content is appended" fails. -/
theorem cancel_empty_partial_no_append :
    (runTurn (fun s => s.length) "gpt".toList 100 "q".toList
        (RemoteResult.stream [⟨some "x".toList⟩] false) 0 sessionDefaults).cancelReported
        = true ∧
    (runTurn (fun s => s.length) "gpt".toList 100 "q".toList
        (RemoteResult.stream [⟨some "x".toList⟩] false) 0 sessionDefaults).committedResponse
        = [] ∧
    (runTurn (fun s => s.length) "gpt".toList 100 "q".toList
        (RemoteResult.stream [⟨some "x".toList⟩] false) 0 sessionDefaults).state.messages
        = [] := by
  decide

/-- C3 (amended): when the cancellation signal is observed before the
stream is exhausted (at receipt check `stopAt` with more fragments
pending), accumulation stops there, the partial text gathered so far
is committed as the final response, the cancellation is reported, and
— provided that partial text is nonempty — an assistant message with
exactly that content is appended to the history (an empty partial
appends nothing). -/
theorem cancellation_commits_partial (tc : List Char → Nat)
    (model_name : List Char) (maxTok : Nat) (mj : List Char)
    (chunks : List Chunk) (failsAtEnd : Bool) (stopAt : Nat)
    (st : SessionState) (hbudget : tc mj ≤ maxTok)
    (hstop : stopAt < chunks.length) :
    (runTurn tc model_name maxTok mj (.stream chunks failsAtEnd) stopAt st).cancelReported
        = true ∧
    (runTurn tc model_name maxTok mj (.stream chunks failsAtEnd) stopAt st).committedResponse
        = ((chunks.take stopAt).map (fun c => c.content.getD [])).flatten ∧
    (((chunks.take stopAt).map (fun c => c.content.getD [])).flatten ≠ [] →
      (runTurn tc model_name maxTok mj (.stream chunks failsAtEnd) stopAt st).state.messages
        = st.messages ++
          [⟨Role.assistant, ((chunks.take stopAt).map (fun c => c.content.getD [])).flatten⟩]) ∧
    (((chunks.take stopAt).map (fun c => c.content.getD [])).flatten = [] →
      (runTurn tc model_name maxTok mj (.stream chunks failsAtEnd) stopAt st).state.messages
        = st.messages) := by
  have hnot : ¬ tc mj > maxTok := by omega
  have hloop := streamLoop_stop chunks stopAt hstop
  refine ⟨?_, ?_, ?_, ?_⟩
  · unfold runTurn
    simp [hnot, hloop]
  · unfold runTurn
    simp [hnot, hloop]
  · intro hne
    unfold runTurn
    simp only [if_neg hnot, hloop]
    rw [finallyCommit_ne_nil tc (tc mj) _ st hne]
  · intro heq
    unfold runTurn
    simp only [if_neg hnot, hloop, heq]
    simp [finallyCommit_nil]

/-- Witness for `cancellation_commits_partial`: fragments `"Hel"`,
`"lo"` then cancellation observed before a third fragment yields a
committed response `"Hello"` appended to the history. -/
theorem cancellation_commits_partial_witness :
    (fun s : List Char => s.length) "q".toList ≤ 100 ∧
    (2 : Nat) < ([⟨some "Hel".toList⟩, ⟨some "lo".toList⟩, ⟨some "!".toList⟩] : List Chunk).length ∧
    ((runTurn (fun s => s.length) "gpt".toList 100 "q".toList
        (.stream [⟨some "Hel".toList⟩, ⟨some "lo".toList⟩, ⟨some "!".toList⟩] false) 2
        sessionDefaults).cancelReported = true ∧
      (runTurn (fun s => s.length) "gpt".toList 100 "q".toList
        (.stream [⟨some "Hel".toList⟩, ⟨some "lo".toList⟩, ⟨some "!".toList⟩] false) 2
        sessionDefaults).committedResponse
        = ((([⟨some "Hel".toList⟩, ⟨some "lo".toList⟩, ⟨some "!".toList⟩] : List Chunk).take 2).map
            (fun c => c.content.getD [])).flatten ∧
      (((([⟨some "Hel".toList⟩, ⟨some "lo".toList⟩, ⟨some "!".toList⟩] : List Chunk).take 2).map
            (fun c => c.content.getD [])).flatten ≠ [] →
        (runTurn (fun s => s.length) "gpt".toList 100 "q".toList
          (.stream [⟨some "Hel".toList⟩, ⟨some "lo".toList⟩, ⟨some "!".toList⟩] false) 2
          sessionDefaults).state.messages
          = sessionDefaults.messages ++
            [⟨Role.assistant,
              ((([⟨some "Hel".toList⟩, ⟨some "lo".toList⟩, ⟨some "!".toList⟩] : List Chunk).take 2).map
                (fun c => c.content.getD [])).flatten⟩]) ∧
      (((([⟨some "Hel".toList⟩, ⟨some "lo".toList⟩, ⟨some "!".toList⟩] : List Chunk).take 2).map
            (fun c => c.content.getD [])).flatten = [] →
        (runTurn (fun s => s.length) "gpt".toList 100 "q".toList
          (.stream [⟨some "Hel".toList⟩, ⟨some "lo".toList⟩, ⟨some "!".toList⟩] false) 2
          sessionDefaults).state.messages = sessionDefaults.messages)) :=
  ⟨by decide, by decide,
    cancellation_commits_partial (fun s => s.length) "gpt".toList 100 "q".toList
      [⟨some "Hel".toList⟩, ⟨some "lo".toList⟩, ⟨some "!".toList⟩] false 2
      sessionDefaults (by decide) (by decide)⟩

/-- C4: the session usage totals start at all-zero, satisfy
`total_tokens = input_tokens + output_tokens` after initialization and
after every chat turn (so cumulatively across turns), and a turn that
commits a response with input-token count `I = tc mj` and output-token
count `O = tc response` increases the three totals by exactly `I`, `O`
and `I + O`. -/
theorem usage_totals_consistent :
    (sessionDefaults.total_usage.total_tokens
      = sessionDefaults.total_usage.input_tokens
        + sessionDefaults.total_usage.output_tokens) ∧
    (∀ (tc : List Char → Nat) (model_name : List Char) (maxTok : Nat)
        (mj : List Char) (remote : RemoteResult) (stopAt : Nat)
        (st : SessionState),
      st.total_usage.total_tokens
          = st.total_usage.input_tokens + st.total_usage.output_tokens →
      (runTurn tc model_name maxTok mj remote stopAt st).state.total_usage.total_tokens
        = (runTurn tc model_name maxTok mj remote stopAt st).state.total_usage.input_tokens
          + (runTurn tc model_name maxTok mj remote stopAt st).state.total_usage.output_tokens) ∧
    (∀ (tc : List Char → Nat) (model_name : List Char) (maxTok : Nat)
        (mj : List Char) (remote : RemoteResult) (stopAt : Nat)
        (st : SessionState),
      (runTurn tc model_name maxTok mj remote stopAt st).committedResponse ≠ [] →
      (runTurn tc model_name maxTok mj remote stopAt st).state.total_usage.input_tokens
          = st.total_usage.input_tokens + tc mj ∧
      (runTurn tc model_name maxTok mj remote stopAt st).state.total_usage.output_tokens
          = st.total_usage.output_tokens
            + tc (runTurn tc model_name maxTok mj remote stopAt st).committedResponse ∧
      (runTurn tc model_name maxTok mj remote stopAt st).state.total_usage.total_tokens
          = st.total_usage.total_tokens
            + (tc mj
              + tc (runTurn tc model_name maxTok mj remote stopAt st).committedResponse)) := by
  refine ⟨rfl, ?_, ?_⟩
  · intro tc model_name maxTok mj remote stopAt st hinv
    rw [runTurn_state_eq]
    by_cases hr : (runTurn tc model_name maxTok mj remote stopAt st).committedResponse = []
    · rw [hr, finallyCommit_nil]
      exact hinv
    · rw [finallyCommit_ne_nil tc (tc mj) _ st hr]
      simp only
      omega
  · intro tc model_name maxTok mj remote stopAt st hr
    rw [runTurn_state_eq, finallyCommit_ne_nil tc (tc mj) _ st hr]
    exact ⟨rfl, rfl, rfl⟩

/-- Witness for `usage_totals_consistent`: a completed two-fragment turn
under the length tokenizer adds exactly (1, 5, 6) to the zero totals. -/
theorem usage_totals_consistent_witness :
    ((runTurn (fun s => s.length) "gpt".toList 100 "q".toList
        (.stream [⟨some "Hel".toList⟩, ⟨some "lo".toList⟩] false) 5
        sessionDefaults).committedResponse ≠ [] ∧
      (runTurn (fun s => s.length) "gpt".toList 100 "q".toList
        (.stream [⟨some "Hel".toList⟩, ⟨some "lo".toList⟩] false) 5
        sessionDefaults).state.total_usage.input_tokens
        = sessionDefaults.total_usage.input_tokens
          + (fun s : List Char => s.length) "q".toList ∧
      (runTurn (fun s => s.length) "gpt".toList 100 "q".toList
        (.stream [⟨some "Hel".toList⟩, ⟨some "lo".toList⟩] false) 5
        sessionDefaults).state.total_usage.output_tokens
        = sessionDefaults.total_usage.output_tokens
          + (fun s : List Char => s.length)
              ((runTurn (fun s => s.length) "gpt".toList 100 "q".toList
                (.stream [⟨some "Hel".toList⟩, ⟨some "lo".toList⟩] false) 5
                sessionDefaults).committedResponse) ∧
      (runTurn (fun s => s.length) "gpt".toList 100 "q".toList
        (.stream [⟨some "Hel".toList⟩, ⟨some "lo".toList⟩] false) 5
        sessionDefaults).state.total_usage.total_tokens
        = sessionDefaults.total_usage.total_tokens
          + ((fun s : List Char => s.length) "q".toList
            + (fun s : List Char => s.length)
                ((runTurn (fun s => s.length) "gpt".toList 100 "q".toList
                  (.stream [⟨some "Hel".toList⟩, ⟨some "lo".toList⟩] false) 5
                  sessionDefaults).committedResponse))) :=
  ⟨by decide,
    (usage_totals_consistent.2.2 (fun s => s.length) "gpt".toList 100 "q".toList
      (.stream [⟨some "Hel".toList⟩, ⟨some "lo".toList⟩] false) 5
      sessionDefaults (by decide)).1,
    (usage_totals_consistent.2.2 (fun s => s.length) "gpt".toList 100 "q".toList
      (.stream [⟨some "Hel".toList⟩, ⟨some "lo".toList⟩] false) 5
      sessionDefaults (by decide)).2.1,
    (usage_totals_consistent.2.2 (fun s => s.length) "gpt".toList 100 "q".toList
      (.stream [⟨some "Hel".toList⟩, ⟨some "lo".toList⟩] false) 5
      sessionDefaults (by decide)).2.2⟩

/-- C7: a chat turn whose accumulated response is empty appends no
message to the history and leaves the session usage totals
unchanged. -/
theorem empty_response_commits_nothing (tc : List Char → Nat)
    (model_name : List Char) (maxTok : Nat) (mj : List Char)
    (remote : RemoteResult) (stopAt : Nat) (st : SessionState)
    (h : (runTurn tc model_name maxTok mj remote stopAt st).committedResponse = []) :
    (runTurn tc model_name maxTok mj remote stopAt st).state.messages = st.messages ∧
    (runTurn tc model_name maxTok mj remote stopAt st).state.total_usage
      = st.total_usage := by
  rw [runTurn_state_eq, h, finallyCommit_nil]
  exact ⟨rfl, rfl⟩

/-- Witness for `empty_response_commits_nothing`: the remote call fails
before streaming began. -/
theorem empty_response_commits_nothing_witness :
    (runTurn (fun s => s.length) "gpt".toList 100 "q".toList
        RemoteResult.failure 5 sessionDefaults).committedResponse = [] ∧
    ((runTurn (fun s => s.length) "gpt".toList 100 "q".toList
        RemoteResult.failure 5 sessionDefaults).state.messages
      = sessionDefaults.messages ∧
    (runTurn (fun s => s.length) "gpt".toList 100 "q".toList
        RemoteResult.failure 5 sessionDefaults).state.total_usage
      = sessionDefaults.total_usage) :=
  ⟨by decide, empty_response_commits_nothing (fun s => s.length) "gpt".toList 100
    "q".toList RemoteResult.failure 5 sessionDefaults (by decide)⟩

/-- C10: whatever way a chat turn resolves — budget rejection, remote
failure before streaming, cancellation mid-stream, mid-stream failure
or normal completion — the `finally` block leaves both
`is_generating` and `stop_generation` reset to false. -/
theorem generation_flags_always_reset (tc : List Char → Nat)
    (model_name : List Char) (maxTok : Nat) (mj : List Char)
    (remote : RemoteResult) (stopAt : Nat) (st : SessionState) :
    (runTurn tc model_name maxTok mj remote stopAt st).state.is_generating = false ∧
    (runTurn tc model_name maxTok mj remote stopAt st).state.stop_generation = false := by
  rw [runTurn_state_eq]
  by_cases hr : (runTurn tc model_name maxTok mj remote stopAt st).committedResponse = []
  · rw [hr, finallyCommit_nil]
    exact ⟨rfl, rfl⟩
  · rw [finallyCommit_ne_nil tc (tc mj) _ st hr]
    exact ⟨rfl, rfl⟩

/-- A concrete image-only PDF directory entry: the parse succeeds but
yields no text, and the file has nonzero size. -/
def scanPdfEntry : FileEntry :=
  ⟨"scan.pdf".toList, true, Ext.pdf, 100, some [], []⟩

/-- C6 counterexample: loading a directory containing one image-only
PDF of nonzero size yields zero documents but TWO warnings — the
specific scanned-image warning AND additionally the generic
unreadable-content warning (the empty-content `elif` fires as well) —
so "exactly one warning" fails. -/
theorem image_only_pdf_two_warnings :
    load_documents 1000 (fun _ => true) true "paper".toList [scanPdfEntry]
      = ([], [Warning.scannedPdf "scan.pdf".toList,
              Warning.unreadable "scan.pdf".toList]) ∧
    (load_documents 1000 (fun _ => true) true "paper".toList [scanPdfEntry]).2.length
      ≠ 1 := by
  decide

/-- C6 (amended): loading a directory containing one image-only PDF of
nonzero size (parse succeeded, no non-whitespace text) produces zero
documents and exactly two warnings, in order: the specific
scanned-image warning, then the generic unreadable/unsupported-content
warning. -/
theorem image_only_pdf_warnings (C : Nat) (keep : Char → Bool)
    (path : List Char) (f : FileEntry) (t : List Char)
    (hfile : f.is_file = true) (hext : f.ext = Ext.pdf)
    (hsize : 0 < f.size) (hparse : f.pdfRaw = some t)
    (htext : strip t = []) :
    load_documents C keep true path [f]
      = ([], [Warning.scannedPdf f.name, Warning.unreadable f.name]) := by
  rcases f with ⟨name, isf, ext, size, praw, traw⟩
  simp only at hfile hext hsize hparse
  subst hfile hext hparse
  simp [load_documents, handleFile, read_pdf, supportedExt, htext, hsize]

/-- Witness for `image_only_pdf_warnings` at the concrete entry. -/
theorem image_only_pdf_warnings_witness :
    scanPdfEntry.is_file = true ∧ scanPdfEntry.ext = Ext.pdf ∧
    0 < scanPdfEntry.size ∧ scanPdfEntry.pdfRaw = some [] ∧ strip [] = [] ∧
    load_documents 500 (fun _ => true) true "paper".toList [scanPdfEntry]
      = ([], [Warning.scannedPdf scanPdfEntry.name,
              Warning.unreadable scanPdfEntry.name]) :=
  ⟨rfl, rfl, by decide, rfl, rfl,
    image_only_pdf_warnings 500 (fun _ => true) "paper".toList scanPdfEntry []
      rfl rfl (by decide) rfl rfl⟩

/-- C8: restoring a parsed snapshot that is missing any of the required
fields `messages`, `loaded_documents` or `selected_model` reports the
`SessionFormatError` and returns before mutating anything: every field
of the prior session state is unchanged. -/
theorem snapshot_missing_field_rejected (st : SessionState) (snap : Snapshot)
    (h : snap.messages = none ∨ snap.loaded_documents = none ∨
      snap.selected_model = none) :
    load_session_from_file st snap = (st, true) := by
  unfold load_session_from_file
  rcases hm : snap.messages with _ | ms
  · rfl
  · rcases hd : snap.loaded_documents with _ | docs
    · rfl
    · rcases hsel : snap.selected_model with _ | model
      · rfl
      · rw [hm, hd, hsel] at h
        rcases h with h | h | h <;> exact absurd h (by simp)

/-- Witness for `snapshot_missing_field_rejected`: a snapshot missing
`selected_model` against a state with prior messages and documents. -/
theorem snapshot_missing_field_rejected_witness :
    (((⟨some [], some [], none, none, none⟩ : Snapshot).messages = none ∨
      (⟨some [], some [], none, none, none⟩ : Snapshot).loaded_documents = none ∨
      (⟨some [], some [], none, none, none⟩ : Snapshot).selected_model = none)) ∧
    load_session_from_file
        { sessionDefaults with
            messages := [⟨Role.user, "hi".toList⟩]
            loaded_documents := [⟨"a.txt".toList, "x".toList⟩] }
        ⟨some [], some [], none, none, none⟩
      = ({ sessionDefaults with
            messages := [⟨Role.user, "hi".toList⟩]
            loaded_documents := [⟨"a.txt".toList, "x".toList⟩] }, true) :=
  ⟨Or.inr (Or.inr rfl),
    snapshot_missing_field_rejected
      { sessionDefaults with
          messages := [⟨Role.user, "hi".toList⟩]
          loaded_documents := [⟨"a.txt".toList, "x".toList⟩] }
      ⟨some [], some [], none, none, none⟩ (Or.inr (Or.inr rfl))⟩

end PaperAnalyst
